import Mathlib

/-!
Shallow embedding of `bots/controllers/generic/activity_simulator.py`
(class `ActivitySimulator`), the round-trip activity simulator controller.

External collaborators (market-data provider, connector, order book,
random number generator) are modelled as an explicit per-tick environment
`Env`: each fallible external call is an `Except Unit` value (an `.error`
models the call raising an exception), and each random draw made during
the tick is an oracle field of the environment (`rand_side` for
`random.choice([TradeType.BUY, TradeType.SELL])`, `rand_unit` for the
unit draw inside `random.uniform`, `rand_book_index` for
`random.choice` over book entries).  Python `Decimal`/`float` quantities
are modelled as `ℚ`.  Mutable controller attributes form `SimState`, and
the methods that mutate them return the new state explicitly.  A Python
exception escaping a method is modelled as `Except.error` carrying the
state at the point the exception is raised.
-/

/-- Trade side, embedding hummingbot's `TradeType` as used by the controller. -/
inductive TradeType where
  | BUY
  | SELL
deriving DecidableEq

/-- Position action tag on an emitted order, embedding `PositionAction`. -/
inductive PositionAction where
  | OPEN
  | CLOSE
deriving DecidableEq

/-- A live exchange position as returned by the connector: `pos.amount`. -/
structure ExchangePosition where
  amount : ℚ
deriving DecidableEq

deriving instance DecidableEq for Except

/-- The slice of the exchange connector the controller touches in
`get_exchange_position`: the optional `get_position` interface and the
optional `_perpetual_trading.account_positions` dictionary (keys kept as
strings, matched by Python substring containment). -/
structure Connector where
  hasGetPosition : Bool
  getPositionResult : Except Unit (Option ExchangePosition)
  hasPerpetualTrading : Bool
  accountPositions : List (String × ExchangePosition)
deriving DecidableEq

/-- One resting order-book entry; only `.price` is read by the controller. -/
structure OrderBookEntry where
  price : ℚ
deriving DecidableEq, Inhabited

/-- The order book as returned by `market_data_provider.get_order_book`. -/
structure OrderBook where
  ask_entries : List OrderBookEntry
  bid_entries : List OrderBookEntry
deriving DecidableEq

/-- One entry of `executors_info`: an executor with its creation
timestamp and activity flag. -/
structure ExecutorInfo where
  id : ℕ
  timestamp : ℚ
  is_active : Bool
deriving DecidableEq

/-- The per-tick environment: everything the controller observes from the
outside during one call of `determine_executor_actions`, plus the random
draws the tick consumes.  `.error`-valued fields model the corresponding
external call raising an exception. -/
structure Env where
  time : ℚ
  executors_info : List ExecutorInfo
  get_connector : Except Unit Connector
  order_book : Except Unit OrderBook
  mid_price : Except Unit (Option ℚ)
  rand_side : TradeType
  rand_unit : ℚ
  rand_book_index : ℕ
deriving DecidableEq

/-- `ActivitySimulatorConfig`: the configuration fields the decision logic
reads (identity fields kept; candle config and position mode are unused by
the embedded methods). -/
structure ActivitySimulatorConfig where
  id : String := ""
  connector_name : String := "ekiden_perpetual"
  trading_pair : String := "ENA-USDC"
  leverage : ℤ := 1
  use_orderbook_prices : Bool := true
  max_orderbook_depth : ℕ := 10
  spread_bps : ℚ := 10
  min_order_size_quote : ℚ := 10
  max_order_size_quote : ℚ := 50
  order_interval_seconds : ℚ := 2
  stale_order_seconds : ℚ := 5
deriving DecidableEq

/-- The mutable attributes of `ActivitySimulator` set in `__init__`. -/
structure SimState where
  last_order_time : ℚ := 0
  last_open_side : Option TradeType := none
  completed_roundtrips : ℕ := 0
  replaced_orders : ℕ := 0
deriving DecidableEq

/-- The `OrderExecutorConfig` payload of an emitted `CreateExecutorAction`
(the fields the controller fills; execution strategy is always LIMIT and
is omitted as a constant). -/
structure OrderExecutorConfig where
  timestamp : ℚ
  connector_name : String
  trading_pair : String
  side : TradeType
  amount : ℚ
  price : ℚ
  position_action : PositionAction
  leverage : ℤ
deriving DecidableEq

/-- An action emitted by the controller: `StopExecutorAction` (with its
`keep_position` flag) or `CreateExecutorAction`. -/
inductive ExecutorAction where
  | stop (controller_id : String) (executor_id : ℕ) (keep_position : Bool)
  | create (controller_id : String) (config : OrderExecutorConfig)
deriving DecidableEq

/-- Whether an `ExecutorAction` is a `CreateExecutorAction`. -/
def ExecutorAction.isCreate : ExecutorAction → Bool
  | .create _ _ => true
  | _ => false

/-- Python substring containment `pair in key`, on the underlying
character lists. -/
def keyMatches (pair key : String) : Bool :=
  decide (pair.toList <:+: key.toList)

/-- Rounding to 2 decimal places, embedding Python `round(x, 2)` over the
rationals: round `100 * x` to the nearest integer and scale back. -/
def roundTo2 (q : ℚ) : ℚ :=
  ((round (q * 100) : ℤ) : ℚ) / 100

/-- Python `random.uniform(a, b) = a + (b - a) * random()` with the unit
draw `t` made explicit. -/
def uniformDraw (a b t : ℚ) : ℚ :=
  a + (b - a) * t

namespace ActivitySimulator

/-- `active_executors`: the executors of `executors_info` with
`is_active` set. -/
def active_executors (env : Env) : List ExecutorInfo :=
  env.executors_info.filter (fun e => e.is_active)

/-- The body of `get_exchange_position` inside its `try`: query the
connector's `get_position` interface, fall back to scanning
`_perpetual_trading.account_positions` for a key containing the trading
pair, and return 0 if neither path yields a position.  An `.error` result
models an exception reaching the `except` handler. -/
def get_exchange_position_body (cfg : ActivitySimulatorConfig) (env : Env) :
    Except Unit ℚ := do
  let connector ← env.get_connector
  if connector.hasGetPosition then
    match ← connector.getPositionResult with
    | some pos => return pos.amount
    | none => pure ()
  if connector.hasPerpetualTrading then
    match connector.accountPositions.find?
        (fun kv => keyMatches cfg.trading_pair kv.1) with
    | some kv => return kv.2.amount
    | none => pure ()
  return 0

/-- `get_exchange_position`: the `try/except Exception: pass` wrapper
collapses every exception of the body to the final `return Decimal("0")`. -/
def get_exchange_position (cfg : ActivitySimulatorConfig) (env : Env) : ℚ :=
  match get_exchange_position_body cfg env with
  | .ok q => q
  | .error _ => 0

/-- `generate_random_size_quote`: a uniform draw between the configured
min and max notionals, rounded to 2 decimal places. -/
def generate_random_size_quote (cfg : ActivitySimulatorConfig) (env : Env) : ℚ :=
  roundTo2 (uniformDraw cfg.min_order_size_quote cfg.max_order_size_quote env.rand_unit)

/-- The side of the book an incoming order would cross:
`order_book.ask_entries() if side == TradeType.BUY else
order_book.bid_entries()`. -/
def crossing_entries (ob : OrderBook) : TradeType → List OrderBookEntry
  | .BUY => ob.ask_entries
  | .SELL => ob.bid_entries

/-- `get_crossing_price`: sample one entry of the crossing side of the
book among the first `min(max_orderbook_depth, len(entries))` entries.
`none` models every path that yields no price: order-book lookup raising
(caught by the `except`), an empty side, or `random.choice` on an empty
slice raising `IndexError` (also caught) when the configured depth
is 0. -/
def get_crossing_price (cfg : ActivitySimulatorConfig) (env : Env)
    (side : TradeType) : Option ℚ :=
  match env.order_book with
  | .error _ => none
  | .ok ob =>
    let entries := crossing_entries ob side
    if entries.isEmpty then none
    else
      let depth := min cfg.max_orderbook_depth entries.length
      let pool := entries.take depth
      if pool.isEmpty then none
      else some (pool.getD (env.rand_book_index % pool.length) default).price

/-- The mid-price fallback of `calculate_order_price`:
`mid * (1 + spread)` for a buy, `mid * (1 - spread)` for a sell, with
`spread = spread_bps / 10000`.  The `get_price_by_type` call here is not
wrapped in a `try`: a raising call (`.error`) propagates, and a `None`
mid-price would raise a `TypeError` at the multiplication, so both map
to `.error`. -/
def fallback_price (cfg : ActivitySimulatorConfig) (env : Env)
    (side : TradeType) : Except Unit ℚ :=
  match env.mid_price with
  | .error _ => .error ()
  | .ok none => .error ()
  | .ok (some mid) =>
    let spread := cfg.spread_bps / 10000
    .ok (match side with
      | .BUY => mid * (1 + spread)
      | .SELL => mid * (1 - spread))

/-- `calculate_order_price`: prefer the crossing price when configured and
truthy (Python `if price:` — a `Decimal` zero is falsy and falls
through), else the mid-price fallback. -/
def calculate_order_price (cfg : ActivitySimulatorConfig) (env : Env)
    (side : TradeType) : Except Unit ℚ :=
  if cfg.use_orderbook_prices then
    match get_crossing_price cfg env side with
    | some price =>
      if price = 0 then fallback_price cfg env side else .ok price
    | none => fallback_price cfg env side
  else fallback_price cfg env side

/-- The active executors whose age `current_time - timestamp` has reached
`stale_order_seconds`. -/
def stale_executors (cfg : ActivitySimulatorConfig) (env : Env) :
    List ExecutorInfo :=
  (active_executors env).filter
    (fun e => cfg.stale_order_seconds ≤ env.time - e.timestamp)

/-- `check_stale_executors`: one `StopExecutorAction` with
`keep_position=True` per stale active executor, incrementing
`_replaced_orders` once per emitted action. -/
def check_stale_executors (cfg : ActivitySimulatorConfig) (env : Env)
    (s : SimState) : SimState × List ExecutorAction :=
  ({ s with replaced_orders := s.replaced_orders + (stale_executors cfg env).length },
   (stale_executors cfg env).map (fun e => .stop cfg.id e.id true))

/-- `should_place_order`: the inter-order interval has elapsed and no
executor is active. -/
def should_place_order (cfg : ActivitySimulatorConfig) (env : Env)
    (s : SimState) : Bool :=
  decide (cfg.order_interval_seconds ≤ env.time - s.last_order_time)
    && (active_executors env).isEmpty

/-- `TradeType.SELL if self._last_open_side == TradeType.BUY else
TradeType.BUY`: the side opposite to the last opened side. -/
def opposite_side : TradeType → TradeType
  | .BUY => .SELL
  | .SELL => .BUY

/-- The tail of the FLAT (`position == 0`) branch of
`determine_executor_actions`, after the side has been chosen and
`_completed_roundtrips` updated (state `s2`): draw the notional, price
the order, divide notional by price (a zero price makes the `Decimal`
division raise, modelled `.error s2`), set `_last_open_side` and
`_last_order_time`, and emit the OPEN order. -/
def open_order (cfg : ActivitySimulatorConfig) (env : Env) (s2 : SimState)
    (side : TradeType) : Except SimState (SimState × List ExecutorAction) :=
  let size_quote := generate_random_size_quote cfg env
  match calculate_order_price cfg env side with
  | .error _ => .error s2
  | .ok price =>
    if price = 0 then .error s2
    else
      .ok ({ s2 with last_open_side := some side, last_order_time := env.time },
        [.create cfg.id {
          timestamp := env.time
          connector_name := cfg.connector_name
          trading_pair := cfg.trading_pair
          side := side
          amount := size_quote / price
          price := price
          position_action := .OPEN
          leverage := cfg.leverage }])

/-- The POSITIONED (`position != 0`) branch of
`determine_executor_actions`: side toward zero, amount the exact
magnitude of the position, price from the Price Selector, CLOSE tag;
`_last_open_side` and `_completed_roundtrips` are untouched. -/
def close_order (cfg : ActivitySimulatorConfig) (env : Env) (s1 : SimState)
    (position : ℚ) : Except SimState (SimState × List ExecutorAction) :=
  let side := if position < 0 then TradeType.BUY else TradeType.SELL
  match calculate_order_price cfg env side with
  | .error _ => .error s1
  | .ok price =>
    .ok ({ s1 with last_order_time := env.time },
      [.create cfg.id {
        timestamp := env.time
        connector_name := cfg.connector_name
        trading_pair := cfg.trading_pair
        side := side
        amount := |position|
        price := price
        position_action := .CLOSE
        leverage := cfg.leverage }])

/-- `determine_executor_actions`: one decision tick.  Stale cancellations
short-circuit; then the placement gate, the mid-price check (`not
mid_price or mid_price <= 0` — `None` and a non-positive value both
return `[]`, a raising read propagates since this read has no `try`),
the position read, and the OPEN/CLOSE branch.  `.error s` models a
Python exception escaping the method with the mutable attributes in
state `s` at the raise point. -/
def determine_executor_actions (cfg : ActivitySimulatorConfig) (env : Env)
    (s : SimState) : Except SimState (SimState × List ExecutorAction) :=
  let s1 := (check_stale_executors cfg env s).1
  let stale := (check_stale_executors cfg env s).2
  if stale ≠ [] then .ok (s1, stale)
  else if should_place_order cfg env s1 = false then .ok (s1, [])
  else match env.mid_price with
    | .error _ => .error s1
    | .ok none => .ok (s1, [])
    | .ok (some mid) =>
      if mid ≤ 0 then .ok (s1, [])
      else
        let position := get_exchange_position cfg env
        if position = 0 then
          let side := match s1.last_open_side with
            | none => env.rand_side
            | some last => opposite_side last
          let s2 := match s1.last_open_side with
            | none => s1
            | some _ =>
              { s1 with completed_roundtrips := s1.completed_roundtrips + 1 }
          open_order cfg env s2 side
        else close_order cfg env s1 position

end ActivitySimulator

open ActivitySimulator

/-! Concrete fixtures used by witnesses and counterexamples. -/

/-- The default configuration of `ActivitySimulatorConfig`. -/
def cfgD : ActivitySimulatorConfig := {}

/-- The default configuration with order-book pricing disabled and a
spread of 10000 bps (100%), a value the config model accepts. -/
def cfgSpreadFull : ActivitySimulatorConfig :=
  { use_orderbook_prices := false, spread_bps := 10000 }

/-- A connector whose `get_position` reports a short position of -2.5. -/
def connShort : Connector where
  hasGetPosition := true
  getPositionResult := .ok (some ⟨-(5/2)⟩)
  hasPerpetualTrading := false
  accountPositions := []

/-- A tick environment at time 10 with no executors, a failing connector
and book lookup, and mid-price 100. -/
def envOpenTick : Env where
  time := 10
  executors_info := []
  get_connector := .error ()
  order_book := .error ()
  mid_price := .ok (some 100)
  rand_side := TradeType.BUY
  rand_unit := 0
  rand_book_index := 0

/-- Like `envOpenTick` but the connector reports the short position. -/
def envCloseTick : Env where
  time := 10
  executors_info := []
  get_connector := .ok connShort
  order_book := .error ()
  mid_price := .ok (some 100)
  rand_side := TradeType.BUY
  rand_unit := 0
  rand_book_index := 0

/-- Like `envOpenTick` but one active, non-stale executor (age 1 < 5). -/
def envBusyTick : Env where
  time := 10
  executors_info := [⟨1, 9, true⟩]
  get_connector := .error ()
  order_book := .error ()
  mid_price := .ok (some 100)
  rand_side := TradeType.BUY
  rand_unit := 0
  rand_book_index := 0

/-- The initial controller state. -/
def sInit : SimState := {}

/-- A state whose last opened side is BUY. -/
def sLastBuy : SimState := { last_open_side := some TradeType.BUY }

/-- Like `envOpenTick` but one active executor created at time 2, whose
age 8 exceeds the 5-second staleness threshold. -/
def envStaleTick : Env where
  time := 10
  executors_info := [⟨7, 2, true⟩]
  get_connector := .error ()
  order_book := .error ()
  mid_price := .ok (some 100)
  rand_side := TradeType.BUY
  rand_unit := 0
  rand_book_index := 0

/-- A connector exposing neither position interface. -/
def connNoIface : Connector where
  hasGetPosition := false
  getPositionResult := .ok none
  hasPerpetualTrading := false
  accountPositions := []

/-- A connector whose `get_position` call raises. -/
def connRaise : Connector where
  hasGetPosition := true
  getPositionResult := .error ()
  hasPerpetualTrading := false
  accountPositions := []

/-- Like `envOpenTick` but with the interface-free connector. -/
def envNoIface : Env :=
  { envOpenTick with get_connector := .ok connNoIface }

/-- Like `envOpenTick` but with the raising `get_position` connector. -/
def envPosRaise : Env :=
  { envOpenTick with get_connector := .ok connRaise }

/-- Like `envOpenTick` but the mid-price read raises. -/
def envMidRaise : Env :=
  { envOpenTick with mid_price := .error () }

/-- Like `envOpenTick` but the book lookup succeeds with a single
zero-priced ask entry. -/
def envZeroAsk : Env :=
  { envOpenTick with order_book := .ok ⟨[⟨0⟩], []⟩ }

/-- The default configuration with min and max notional both 10.006, a
value with three decimal places. -/
def cfgRound : ActivitySimulatorConfig :=
  { min_order_size_quote := 10006 / 1000, max_order_size_quote := 10006 / 1000 }

/-- The default configuration with a configured book depth of 0. -/
def cfgDepth0 : ActivitySimulatorConfig := { max_orderbook_depth := 0 }

/-- Like `envOpenTick` but the book lookup succeeds with two ask entries
priced 5 and 6. -/
def envAsk56 : Env :=
  { envOpenTick with order_book := .ok ⟨[⟨5⟩, ⟨6⟩], []⟩ }

/-! Helper lemmas shared by the claim theorems. -/

lemma check_stale_snd (cfg : ActivitySimulatorConfig) (env : Env) (s : SimState) :
    (check_stale_executors cfg env s).2 =
      (stale_executors cfg env).map (fun e => ExecutorAction.stop cfg.id e.id true) :=
  rfl

lemma check_stale_snd_eq_nil (cfg : ActivitySimulatorConfig) (env : Env) (s : SimState) :
    (check_stale_executors cfg env s).2 = [] ↔ stale_executors cfg env = [] := by
  rw [check_stale_snd, List.map_eq_nil_iff]

lemma check_stale_fst_of_nil (cfg : ActivitySimulatorConfig) (env : Env) (s : SimState)
    (h : stale_executors cfg env = []) :
    (check_stale_executors cfg env s).1 = s := by
  simp [check_stale_executors, h]

lemma fallback_price_eq (cfg : ActivitySimulatorConfig) (env : Env) (side : TradeType)
    (m : ℚ) (hmid : env.mid_price = .ok (some m)) :
    fallback_price cfg env side =
      .ok (match side with
        | .BUY => m * (1 + cfg.spread_bps / 10000)
        | .SELL => m * (1 - cfg.spread_bps / 10000)) := by
  unfold fallback_price
  rw [hmid]

lemma calculate_order_price_cases (cfg : ActivitySimulatorConfig) (env : Env)
    (side : TradeType) :
    (∃ p, get_crossing_price cfg env side = some p ∧ p ≠ 0 ∧
        calculate_order_price cfg env side = .ok p) ∨
      calculate_order_price cfg env side = fallback_price cfg env side := by
  by_cases hob : cfg.use_orderbook_prices
  · cases hcp : get_crossing_price cfg env side with
    | none => right; simp [calculate_order_price, hob, hcp]
    | some p =>
      by_cases hp : p = 0
      · right; simp [calculate_order_price, hob, hcp, hp]
      · left; exact ⟨p, rfl, hp, by simp [calculate_order_price, hob, hcp, hp]⟩
  · right; simp [calculate_order_price, hob]

lemma calculate_order_price_ok (cfg : ActivitySimulatorConfig) (env : Env)
    (side : TradeType) (m : ℚ) (hmid : env.mid_price = .ok (some m)) :
    ∃ p, calculate_order_price cfg env side = .ok p := by
  have hfb := fallback_price_eq cfg env side m hmid
  rcases calculate_order_price_cases cfg env side with ⟨p, _, _, h⟩ | h
  · exact ⟨p, h⟩
  · exact ⟨_, h.trans hfb⟩

lemma spread_factor_pos_buy (cfg : ActivitySimulatorConfig)
    (h1 : -10000 < cfg.spread_bps) : (0 : ℚ) < 1 + cfg.spread_bps / 10000 := by
  have h : (-1 : ℚ) < cfg.spread_bps / 10000 := by
    rw [lt_div_iff₀ (show (0 : ℚ) < 10000 by norm_num)]
    linarith
  linarith

lemma spread_factor_pos_sell (cfg : ActivitySimulatorConfig)
    (h2 : cfg.spread_bps < 10000) : (0 : ℚ) < 1 - cfg.spread_bps / 10000 := by
  have h : cfg.spread_bps / 10000 < 1 := by
    rw [div_lt_iff₀ (show (0 : ℚ) < 10000 by norm_num)]
    linarith
  linarith

lemma calculate_order_price_ok_ne_zero (cfg : ActivitySimulatorConfig) (env : Env)
    (side : TradeType) (m : ℚ) (hmid : env.mid_price = .ok (some m)) (hm : 0 < m)
    (h1 : -10000 < cfg.spread_bps) (h2 : cfg.spread_bps < 10000) :
    ∃ p, calculate_order_price cfg env side = .ok p ∧ p ≠ 0 := by
  have hfb := fallback_price_eq cfg env side m hmid
  have hfbne : (match side with
      | TradeType.BUY => m * (1 + cfg.spread_bps / 10000)
      | TradeType.SELL => m * (1 - cfg.spread_bps / 10000)) ≠ 0 := by
    cases side
    · exact ne_of_gt (mul_pos hm (spread_factor_pos_buy cfg h1))
    · exact ne_of_gt (mul_pos hm (spread_factor_pos_sell cfg h2))
  rcases calculate_order_price_cases cfg env side with ⟨p, _, hp, h⟩ | h
  · exact ⟨p, h, hp⟩
  · exact ⟨_, h.trans hfb, hfbne⟩

lemma get_exchange_position_connector_error (cfg : ActivitySimulatorConfig)
    (env : Env) (h : env.get_connector = .error ()) :
    get_exchange_position cfg env = 0 := by
  unfold get_exchange_position get_exchange_position_body
  rw [h]
  rfl

lemma determine_of_placing (cfg : ActivitySimulatorConfig) (env : Env) (s : SimState)
    (m : ℚ) (hstale : stale_executors cfg env = [])
    (hgate : should_place_order cfg env s = true)
    (hmid : env.mid_price = .ok (some m)) (hm : 0 < m) :
    determine_executor_actions cfg env s =
      if get_exchange_position cfg env = 0 then
        open_order cfg env
          (match s.last_open_side with
            | none => s
            | some _ => { s with completed_roundtrips := s.completed_roundtrips + 1 })
          (match s.last_open_side with
            | none => env.rand_side
            | some last => opposite_side last)
      else close_order cfg env s (get_exchange_position cfg env) := by
  have hs1 : (check_stale_executors cfg env s).1 = s := check_stale_fst_of_nil cfg env s hstale
  have hsnil : (check_stale_executors cfg env s).2 = [] :=
    (check_stale_snd_eq_nil cfg env s).mpr hstale
  simp only [determine_executor_actions, hsnil, hs1, hgate, hmid, ne_eq,
    not_true_eq_false, if_false, Bool.true_eq_false, if_neg (not_le.mpr hm)]

/-- Claim C8: re-running the Staleness Monitor a second time in the same
tick, on the state produced by the first run and with the environment
(time and active-executor snapshot) unchanged, produces exactly the
cancellations of the first run — no new ones. -/
theorem stale_check_idempotent (cfg : ActivitySimulatorConfig) (env : Env)
    (s : SimState) :
    (check_stale_executors cfg env (check_stale_executors cfg env s).1).2 =
      (check_stale_executors cfg env s).2 :=
  rfl

/-- Claim C3: on a tick with no stale executors, if an active executor
exists, or the inter-order interval has not elapsed, or the mid-price
read yields no value, or the mid-price is non-positive, then
`determine_executor_actions` emits no action at all (an empty list). -/
theorem blocked_tick_emits_nothing (cfg : ActivitySimulatorConfig) (env : Env)
    (s : SimState) (hstale : (check_stale_executors cfg env s).2 = [])
    (hblock : active_executors env ≠ [] ∨
      env.time - s.last_order_time < cfg.order_interval_seconds ∨
      env.mid_price = .ok none ∨
      ∃ m, env.mid_price = .ok (some m) ∧ m ≤ 0) :
    determine_executor_actions cfg env s =
      .ok ((check_stale_executors cfg env s).1, []) := by
  have hse := (check_stale_snd_eq_nil cfg env s).mp hstale
  have hs1 : (check_stale_executors cfg env s).1 = s := check_stale_fst_of_nil cfg env s hse
  rcases hblock with h | h | h | ⟨m, hm, hm0⟩
  · have hne : (active_executors env).isEmpty = false := by
      cases hae : active_executors env with
      | nil => exact absurd hae h
      | cons a l => rfl
    have hg : should_place_order cfg env s = false := by
      simp [should_place_order, hne]
    simp [determine_executor_actions, hstale, hs1, hg]
  · have hg : should_place_order cfg env s = false := by
      simp [should_place_order, decide_eq_false (not_le.mpr h)]
    simp [determine_executor_actions, hstale, hs1, hg]
  · by_cases hg : should_place_order cfg env s = false
    · simp [determine_executor_actions, hstale, hs1, hg]
    · simp [determine_executor_actions, hstale, hs1, hg, h]
  · by_cases hg : should_place_order cfg env s = false
    · simp [determine_executor_actions, hstale, hs1, hg]
    · simp [determine_executor_actions, hstale, hs1, hg, hm, if_pos hm0]

/-- Claim C2: on a tick with no stale cancellations, a passing gate, a
valid positive mid-price, and a nonzero oracle position, the tick emits
exactly one CLOSE order whose side moves toward zero (buy on a short
position, sell on a long one) and whose amount is exactly the absolute
value of the position; `last_open_side` and `completed_roundtrips` are
unchanged. -/
theorem positioned_tick_emits_exact_close (cfg : ActivitySimulatorConfig)
    (env : Env) (s : SimState) (m : ℚ)
    (hstale : (check_stale_executors cfg env s).2 = [])
    (hgate : should_place_order cfg env s = true)
    (hmid : env.mid_price = .ok (some m)) (hm : 0 < m)
    (hpos : get_exchange_position cfg env ≠ 0) :
    ∃ price, determine_executor_actions cfg env s =
      .ok ({ s with last_order_time := env.time },
        [ExecutorAction.create cfg.id {
          timestamp := env.time
          connector_name := cfg.connector_name
          trading_pair := cfg.trading_pair
          side := if get_exchange_position cfg env < 0 then TradeType.BUY
            else TradeType.SELL
          amount := |get_exchange_position cfg env|
          price := price
          position_action := PositionAction.CLOSE
          leverage := cfg.leverage }]) := by
  have hse := (check_stale_snd_eq_nil cfg env s).mp hstale
  obtain ⟨p, hp⟩ := calculate_order_price_ok cfg env
    (if get_exchange_position cfg env < 0 then TradeType.BUY else TradeType.SELL) m hmid
  refine ⟨p, ?_⟩
  rw [determine_of_placing cfg env s m hse hgate hmid hm, if_neg hpos]
  simp only [close_order, hp]

/-- Claim C1 (amended): on a tick with no stale cancellations, a passing
gate, a valid positive mid-price, a zero oracle position, a set
`last_open_side`, and a spread strictly between -10000 and 10000 basis
points (so the selected price cannot be zero), the tick emits exactly
one OPEN order on the side opposite to `last_open_side`, increments
`completed_roundtrips` by exactly 1, and updates `last_open_side` to the
chosen side. -/
theorem open_tick_reverses_side (cfg : ActivitySimulatorConfig) (env : Env)
    (s : SimState) (last : TradeType) (m : ℚ)
    (hspread1 : -10000 < cfg.spread_bps) (hspread2 : cfg.spread_bps < 10000)
    (hstale : (check_stale_executors cfg env s).2 = [])
    (hgate : should_place_order cfg env s = true)
    (hmid : env.mid_price = .ok (some m)) (hm : 0 < m)
    (hpos : get_exchange_position cfg env = 0)
    (hlast : s.last_open_side = some last) :
    ∃ price amount, determine_executor_actions cfg env s =
      .ok ({ last_order_time := env.time
             last_open_side := some (opposite_side last)
             completed_roundtrips := s.completed_roundtrips + 1
             replaced_orders := s.replaced_orders },
        [ExecutorAction.create cfg.id {
          timestamp := env.time
          connector_name := cfg.connector_name
          trading_pair := cfg.trading_pair
          side := opposite_side last
          amount := amount
          price := price
          position_action := PositionAction.OPEN
          leverage := cfg.leverage }]) := by
  have hse := (check_stale_snd_eq_nil cfg env s).mp hstale
  obtain ⟨p, hp, hpne⟩ := calculate_order_price_ok_ne_zero cfg env
    (opposite_side last) m hmid hm hspread1 hspread2
  refine ⟨p, generate_random_size_quote cfg env / p, ?_⟩
  rw [determine_of_placing cfg env s m hse hgate hmid hm, if_pos hpos]
  simp only [hlast, open_order, hp, if_neg hpne]

/-- Claim C1, counterexample to the unamended statement: with
`spread_bps = 10000` and order-book pricing disabled, a tick satisfying
every condition of the claim (no stale actions, passing gate, mid-price
100 > 0, zero position, `last_open_side = BUY`) computes the sell price
`100 * (1 - 10000/10000) = 0`, and the `Decimal` division
`size_quote / price` raises instead of emitting an OPEN order (the
roundtrip counter is incremented before the raise; `last_open_side` is
not updated). -/
theorem open_tick_zero_price_counterexample :
    (check_stale_executors cfgSpreadFull envOpenTick sLastBuy).2 = [] ∧
    should_place_order cfgSpreadFull envOpenTick sLastBuy = true ∧
    envOpenTick.mid_price = .ok (some 100) ∧ (0 : ℚ) < 100 ∧
    get_exchange_position cfgSpreadFull envOpenTick = 0 ∧
    sLastBuy.last_open_side = some TradeType.BUY ∧
    determine_executor_actions cfgSpreadFull envOpenTick sLastBuy =
      .error { last_order_time := 0, last_open_side := some TradeType.BUY,
               completed_roundtrips := 1, replaced_orders := 0 } := by
  refine ⟨rfl, ?_, rfl, by norm_num, rfl, rfl, ?_⟩
  · norm_num [should_place_order, active_executors, envOpenTick, cfgSpreadFull, sLastBuy]
  · norm_num [determine_executor_actions, check_stale_executors, stale_executors,
      active_executors, should_place_order, open_order, calculate_order_price,
      fallback_price, get_crossing_price, opposite_side,
      get_exchange_position_connector_error,
      envOpenTick, cfgSpreadFull, sLastBuy]

/-- Claim C1, witness: the amended theorem applied to the default
configuration on a flat tick with `last_open_side = BUY`. -/
theorem open_tick_reverses_side_witness :
    ∃ price amount, determine_executor_actions cfgD envOpenTick sLastBuy =
      .ok ({ last_order_time := envOpenTick.time
             last_open_side := some (opposite_side TradeType.BUY)
             completed_roundtrips := sLastBuy.completed_roundtrips + 1
             replaced_orders := sLastBuy.replaced_orders },
        [ExecutorAction.create cfgD.id {
          timestamp := envOpenTick.time
          connector_name := cfgD.connector_name
          trading_pair := cfgD.trading_pair
          side := opposite_side TradeType.BUY
          amount := amount
          price := price
          position_action := PositionAction.OPEN
          leverage := cfgD.leverage }]) :=
  open_tick_reverses_side cfgD envOpenTick sLastBuy TradeType.BUY 100
    (by norm_num [cfgD]) (by norm_num [cfgD]) rfl
    (by norm_num [should_place_order, active_executors, envOpenTick, cfgD, sLastBuy])
    rfl (by norm_num) rfl rfl

/-- Claim C2, witness: the theorem applied to the default configuration
on a tick whose connector reports a short position of -2.5. -/
theorem positioned_tick_emits_exact_close_witness :
    ∃ price, determine_executor_actions cfgD envCloseTick sInit =
      .ok ({ sInit with last_order_time := envCloseTick.time },
        [ExecutorAction.create cfgD.id {
          timestamp := envCloseTick.time
          connector_name := cfgD.connector_name
          trading_pair := cfgD.trading_pair
          side := if get_exchange_position cfgD envCloseTick < 0 then TradeType.BUY
            else TradeType.SELL
          amount := |get_exchange_position cfgD envCloseTick|
          price := price
          position_action := PositionAction.CLOSE
          leverage := cfgD.leverage }]) :=
  positioned_tick_emits_exact_close cfgD envCloseTick sInit 100 rfl
    (by norm_num [should_place_order, active_executors, envCloseTick, cfgD, sInit])
    rfl (by norm_num)
    (by rw [show get_exchange_position cfgD envCloseTick = -(5/2) from rfl]; norm_num)

/-- Claim C3, witness: the theorem applied to a tick blocked by one
active (non-stale) executor. -/
theorem blocked_tick_emits_nothing_witness :
    determine_executor_actions cfgD envBusyTick sInit =
      .ok ((check_stale_executors cfgD envBusyTick sInit).1, []) :=
  blocked_tick_emits_nothing cfgD envBusyTick sInit
    (by norm_num [check_stale_executors, stale_executors, active_executors,
      envBusyTick, cfgD])
    (Or.inl (by simp [active_executors, envBusyTick]))

lemma except_bind_ok {ε α β : Type} (a : α) (f : α → Except ε β) :
    (Except.ok a >>= f) = f a :=
  rfl

lemma except_bind_error {ε α β : Type} (u : ε) (f : α → Except ε β) :
    ((Except.error u : Except ε α) >>= f) = Except.error u :=
  rfl

/-- Claim C4: every active executor whose age has reached
`stale_order_seconds` gets a stop action with `keep_position = true`;
`replaced_orders` grows by exactly one per emitted cancellation; and a
non-empty cancellation list short-circuits the tick, whose emitted
actions are then exactly the cancellations and contain no
`CreateExecutorAction`. -/
theorem stale_check_cancels_and_short_circuits (cfg : ActivitySimulatorConfig)
    (env : Env) (s : SimState) :
    (∀ e ∈ active_executors env,
        cfg.stale_order_seconds ≤ env.time - e.timestamp →
        ExecutorAction.stop cfg.id e.id true ∈ (check_stale_executors cfg env s).2) ∧
    (check_stale_executors cfg env s).1.replaced_orders =
      s.replaced_orders + (check_stale_executors cfg env s).2.length ∧
    ((check_stale_executors cfg env s).2 ≠ [] →
      determine_executor_actions cfg env s =
        .ok ((check_stale_executors cfg env s).1,
          (check_stale_executors cfg env s).2) ∧
      ∀ a ∈ (check_stale_executors cfg env s).2, a.isCreate = false) := by
  refine ⟨?_, ?_, ?_⟩
  · intro e he hstale
    rw [check_stale_snd]
    exact List.mem_map.mpr ⟨e, List.mem_filter.mpr ⟨he, by simpa using hstale⟩, rfl⟩
  · simp [check_stale_executors]
  · intro hne
    constructor
    · simp only [determine_executor_actions, if_pos hne]
    · intro a ha
      rw [check_stale_snd] at ha
      obtain ⟨e, _, rfl⟩ := List.mem_map.mp ha
      rfl

/-- Claim C5: `get_exchange_position` returns exactly zero on every
failure of the position lookup — the lookup body raising (any exception
reaching the `except` handler), the connector accessor itself raising,
the connector's `get_position` call raising, or a connector exposing
neither position interface — and, being total, never propagates an
error. -/
theorem position_failure_returns_zero (cfg : ActivitySimulatorConfig) (env : Env) :
    (get_exchange_position_body cfg env = .error () →
      get_exchange_position cfg env = 0) ∧
    (env.get_connector = .error () → get_exchange_position cfg env = 0) ∧
    (∀ c, env.get_connector = .ok c → c.hasGetPosition = true →
      c.getPositionResult = .error () → get_exchange_position cfg env = 0) ∧
    (∀ c, env.get_connector = .ok c → c.hasGetPosition = false →
      c.hasPerpetualTrading = false → get_exchange_position cfg env = 0) := by
  refine ⟨?_, ?_, ?_, ?_⟩
  · intro h
    unfold get_exchange_position
    rw [h]
  · exact get_exchange_position_connector_error cfg env
  · intro c hc hgp hr
    unfold get_exchange_position get_exchange_position_body
    rw [hc]
    simp [except_bind_ok, except_bind_error, hgp, hr]
  · intro c hc hgp hpt
    unfold get_exchange_position get_exchange_position_body
    rw [hc]
    simp only [except_bind_ok, except_bind_error, hgp, hpt, Bool.false_eq_true,
      if_false]
    rfl

/-- Claim C4, witness: the stale executor of `envStaleTick` is cancelled
and its cancellation short-circuits the tick. -/
theorem stale_check_cancels_and_short_circuits_witness :
    ExecutorAction.stop cfgD.id 7 true ∈
      (check_stale_executors cfgD envStaleTick sInit).2 ∧
    determine_executor_actions cfgD envStaleTick sInit =
      .ok ((check_stale_executors cfgD envStaleTick sInit).1,
        (check_stale_executors cfgD envStaleTick sInit).2) := by
  refine ⟨?_, ?_⟩
  · exact (stale_check_cancels_and_short_circuits cfgD envStaleTick sInit).1
      ⟨7, 2, true⟩ (by simp [active_executors, envStaleTick])
      (by norm_num [envStaleTick, cfgD])
  · exact ((stale_check_cancels_and_short_circuits cfgD envStaleTick sInit).2.2
      (by norm_num [check_stale_executors, stale_executors, active_executors,
        envStaleTick, cfgD])).1

/-- Claim C5, witness: the position read returns zero when the connector
accessor raises, when `get_position` raises, and when the connector has
no position interface. -/
theorem position_failure_returns_zero_witness :
    get_exchange_position cfgD envOpenTick = 0 ∧
    get_exchange_position cfgD envPosRaise = 0 ∧
    get_exchange_position cfgD envNoIface = 0 :=
  ⟨(position_failure_returns_zero cfgD envOpenTick).2.1 rfl,
    (position_failure_returns_zero cfgD envPosRaise).2.2.1 connRaise rfl rfl rfl,
    (position_failure_returns_zero cfgD envNoIface).2.2.2 connNoIface rfl rfl rfl⟩

lemma open_order_eq (cfg : ActivitySimulatorConfig) (env : Env) (s2 : SimState)
    (side : TradeType) (p : ℚ)
    (hp : calculate_order_price cfg env side = .ok p) (hpne : p ≠ 0) :
    open_order cfg env s2 side =
      .ok ({ s2 with last_open_side := some side, last_order_time := env.time },
        [ExecutorAction.create cfg.id {
          timestamp := env.time
          connector_name := cfg.connector_name
          trading_pair := cfg.trading_pair
          side := side
          amount := generate_random_size_quote cfg env / p
          price := p
          position_action := PositionAction.OPEN
          leverage := cfg.leverage }]) := by
  simp only [open_order, hp, if_neg hpne]

lemma close_order_eq (cfg : ActivitySimulatorConfig) (env : Env) (s1 : SimState)
    (position p : ℚ)
    (hp : calculate_order_price cfg env
      (if position < 0 then TradeType.BUY else TradeType.SELL) = .ok p) :
    close_order cfg env s1 position =
      .ok ({ s1 with last_order_time := env.time },
        [ExecutorAction.create cfg.id {
          timestamp := env.time
          connector_name := cfg.connector_name
          trading_pair := cfg.trading_pair
          side := if position < 0 then TradeType.BUY else TradeType.SELL
          amount := |position|
          price := p
          position_action := PositionAction.CLOSE
          leverage := cfg.leverage }]) := by
  simp only [close_order, hp]

/-- Claim C6 (amended): `determine_executor_actions` returns normally on
every tick in which the mid-price read itself returns normally, provided
the spread lies strictly between -10000 and 10000 basis points (which
rules out the zero-price division): exceptions of the position lookup
and of the order-book lookup are caught at the call site and replaced by
safe defaults. -/
theorem determine_ok_of_mid_read_ok (cfg : ActivitySimulatorConfig) (env : Env)
    (s : SimState) (r : Option ℚ) (hmid : env.mid_price = .ok r)
    (hspread1 : -10000 < cfg.spread_bps) (hspread2 : cfg.spread_bps < 10000) :
    ∃ out, determine_executor_actions cfg env s = .ok out := by
  by_cases hst : (check_stale_executors cfg env s).2 = []
  · have hse := (check_stale_snd_eq_nil cfg env s).mp hst
    have hs1 : (check_stale_executors cfg env s).1 = s :=
      check_stale_fst_of_nil cfg env s hse
    by_cases hg : should_place_order cfg env s = true
    · cases r with
      | none => exact ⟨(s, []), by simp [determine_executor_actions, hst, hs1, hg, hmid]⟩
      | some m =>
        by_cases hm : m ≤ 0
        · exact ⟨(s, []),
            by simp [determine_executor_actions, hst, hs1, hg, hmid, if_pos hm]⟩
        · have hm' : 0 < m := not_le.mp hm
          rw [determine_of_placing cfg env s m hse hg hmid hm']
          by_cases hpos : get_exchange_position cfg env = 0
          · rw [if_pos hpos]
            obtain ⟨p, hp, hpne⟩ := calculate_order_price_ok_ne_zero cfg env
              (match s.last_open_side with
                | none => env.rand_side
                | some last => opposite_side last) m hmid hm' hspread1 hspread2
            exact ⟨_, open_order_eq cfg env _ _ p hp hpne⟩
          · rw [if_neg hpos]
            obtain ⟨p, hp⟩ := calculate_order_price_ok cfg env
              (if get_exchange_position cfg env < 0 then TradeType.BUY
                else TradeType.SELL) m hmid
            exact ⟨_, close_order_eq cfg env s _ p hp⟩
    · have hg' : should_place_order cfg env s = false := by
        cases hgb : should_place_order cfg env s with
        | false => rfl
        | true => exact absurd hgb hg
      exact ⟨(s, []), by simp [determine_executor_actions, hst, hs1, hg']⟩
  · exact ⟨((check_stale_executors cfg env s).1, (check_stale_executors cfg env s).2),
      by simp only [determine_executor_actions, if_pos hst]⟩

/-- Claim C6, counterexample to the unamended statement: the mid-price
read inside `determine_executor_actions` is not wrapped in a `try`, so
a raising read propagates out of the decision tick instead of being
converted to a safe default. -/
theorem determine_raises_on_mid_read_error :
    determine_executor_actions cfgD envMidRaise sInit = .error sInit := by
  norm_num [determine_executor_actions, check_stale_executors, stale_executors,
    active_executors, should_place_order, envMidRaise, envOpenTick, cfgD, sInit]

/-- Claim C6, witness: the amended theorem applied to a tick whose
mid-price read returns normally. -/
theorem determine_ok_of_mid_read_ok_witness :
    ∃ out, determine_executor_actions cfgD envOpenTick sInit = .ok out :=
  determine_ok_of_mid_read_ok cfgD envOpenTick sInit (some 100) rfl
    (by norm_num [cfgD]) (by norm_num [cfgD])

lemma determine_ok_actions (cfg : ActivitySimulatorConfig) (env : Env) (s : SimState)
    (st : SimState) (acts : List ExecutorAction)
    (h : determine_executor_actions cfg env s = .ok (st, acts)) :
    acts = (check_stale_executors cfg env s).2 ∨ acts = [] ∨
    (∃ side p, p ≠ 0 ∧ calculate_order_price cfg env side = .ok p ∧
      acts = [ExecutorAction.create cfg.id {
        timestamp := env.time, connector_name := cfg.connector_name,
        trading_pair := cfg.trading_pair, side := side,
        amount := generate_random_size_quote cfg env / p, price := p,
        position_action := PositionAction.OPEN, leverage := cfg.leverage }]) ∨
    (∃ side p, calculate_order_price cfg env side = .ok p ∧
      acts = [ExecutorAction.create cfg.id {
        timestamp := env.time, connector_name := cfg.connector_name,
        trading_pair := cfg.trading_pair, side := side,
        amount := |get_exchange_position cfg env|, price := p,
        position_action := PositionAction.CLOSE, leverage := cfg.leverage }]) := by
  simp only [determine_executor_actions, open_order, close_order] at h
  split at h
  · simp only [Except.ok.injEq, Prod.mk.injEq] at h
    exact Or.inl h.2.symm
  · split at h
    · simp only [Except.ok.injEq, Prod.mk.injEq] at h
      exact Or.inr (Or.inl h.2.symm)
    · split at h
      · exact absurd h (by simp)
      · simp only [Except.ok.injEq, Prod.mk.injEq] at h
        exact Or.inr (Or.inl h.2.symm)
      · split at h
        · simp only [Except.ok.injEq, Prod.mk.injEq] at h
          exact Or.inr (Or.inl h.2.symm)
        · split at h
          · split at h
            · exact absurd h (by simp)
            · rename_i p hcalc
              split at h
              · exact absurd h (by simp)
              · rename_i hpne
                simp only [Except.ok.injEq, Prod.mk.injEq] at h
                exact Or.inr (Or.inr (Or.inl ⟨_, p, hpne, hcalc, h.2.symm⟩))
          · split at h
            · exact absurd h (by simp)
            · rename_i p hcalc
              simp only [Except.ok.injEq, Prod.mk.injEq] at h
              exact Or.inr (Or.inr (Or.inr ⟨_, p, hcalc, h.2.symm⟩))

/-- Claim C10: a crossing price of exactly zero is falsy for the Python
`if price:` check, so `calculate_order_price` falls back to the
mid-price spread formula instead of returning it; consequently the price
carried by any emitted OPEN order — the divisor of its notional — is
never zero. -/
theorem zero_crossing_price_falls_back (cfg : ActivitySimulatorConfig) (env : Env) :
    (∀ side, get_crossing_price cfg env side = some 0 →
      calculate_order_price cfg env side = fallback_price cfg env side) ∧
    (∀ s st acts, determine_executor_actions cfg env s = .ok (st, acts) →
      ∀ cid oc, ExecutorAction.create cid oc ∈ acts →
        oc.position_action = PositionAction.OPEN → oc.price ≠ 0) := by
  constructor
  · intro side h
    by_cases hob : cfg.use_orderbook_prices
    · simp [calculate_order_price, hob, h]
    · simp [calculate_order_price, hob]
  · intro s st acts hdet cid oc hmem hopen
    rcases determine_ok_actions cfg env s st acts hdet with
      h | h | ⟨side, p, hpne, hp, h⟩ | ⟨side, p, hp, h⟩
    · subst h
      rw [check_stale_snd] at hmem
      obtain ⟨e, -, heq⟩ := List.mem_map.mp hmem
      exact ExecutorAction.noConfusion heq
    · subst h
      simp at hmem
    · subst h
      simp only [List.mem_singleton, ExecutorAction.create.injEq] at hmem
      obtain ⟨-, rfl⟩ := hmem
      exact hpne
    · subst h
      simp only [List.mem_singleton, ExecutorAction.create.injEq] at hmem
      obtain ⟨-, rfl⟩ := hmem
      simp at hopen

/-- Claim C10, witness: on the zero-priced book the selector returns the
fallback price, and the OPEN order emitted on a flat tick over the
failing book of `envOpenTick` carries the nonzero fallback price
`100 * (1 - 10/10000) = 999/10`. -/
theorem zero_crossing_price_falls_back_witness :
    calculate_order_price cfgD envZeroAsk TradeType.BUY =
      fallback_price cfgD envZeroAsk TradeType.BUY ∧
    ((999 : ℚ) / 10 ≠ 0) := by
  constructor
  · exact (zero_crossing_price_falls_back cfgD envZeroAsk).1 TradeType.BUY rfl
  · have hdet : determine_executor_actions cfgD envOpenTick sLastBuy =
        .ok ({ last_order_time := 10, last_open_side := some TradeType.SELL,
               completed_roundtrips := 1, replaced_orders := 0 },
          [ExecutorAction.create cfgD.id {
            timestamp := 10, connector_name := cfgD.connector_name,
            trading_pair := cfgD.trading_pair, side := TradeType.SELL,
            amount := (100 : ℚ) / 999, price := (999 : ℚ) / 10,
            position_action := PositionAction.OPEN, leverage := cfgD.leverage }]) := by
      norm_num [determine_executor_actions, check_stale_executors, stale_executors,
        active_executors, should_place_order, open_order, calculate_order_price,
        fallback_price, get_crossing_price, get_exchange_position_connector_error,
        opposite_side, generate_random_size_quote, roundTo2, uniformDraw, round_eq,
        envOpenTick, cfgD, sLastBuy]
    exact (zero_crossing_price_falls_back cfgD envOpenTick).2 sLastBuy _ _ hdet
      cfgD.id _ (List.mem_singleton.mpr rfl) rfl

lemma round_le_round_of_le {x y : ℚ} (h : x ≤ y) : round x ≤ round y := by
  rw [round_eq, round_eq]
  exact Int.floor_le_floor (by linarith)

lemma roundTo2_le (u b : ℚ) (kb : ℤ) (hb : b = kb / 100) (h : u ≤ b) :
    roundTo2 u ≤ b := by
  have hb100 : b * 100 = (kb : ℚ) := by
    rw [hb]
    field_simp
  have h1 : round (u * 100) ≤ round (b * 100) :=
    round_le_round_of_le (by nlinarith)
  have h2 : round (b * 100) = kb := by
    rw [hb100, round_intCast]
  rw [roundTo2, hb]
  rw [div_le_div_iff_of_pos_right (show (0 : ℚ) < 100 by norm_num)]
  exact_mod_cast h1.trans_eq h2

lemma le_roundTo2 (u a : ℚ) (ka : ℤ) (ha : a = ka / 100) (h : a ≤ u) :
    a ≤ roundTo2 u := by
  have ha100 : a * 100 = (ka : ℚ) := by
    rw [ha]
    field_simp
  have h1 : round (a * 100) ≤ round (u * 100) :=
    round_le_round_of_le (by nlinarith)
  have h2 : round (a * 100) = ka := by
    rw [ha100, round_intCast]
  rw [roundTo2, ha]
  rw [div_le_div_iff_of_pos_right (show (0 : ℚ) < 100 by norm_num)]
  exact_mod_cast h2 ▸ h1

lemma uniformDraw_mem (a b t : ℚ) (hab : a ≤ b) (h0 : 0 ≤ t) (h1 : t ≤ 1) :
    a ≤ uniformDraw a b t ∧ uniformDraw a b t ≤ b := by
  unfold uniformDraw
  constructor <;> nlinarith

lemma get_exchange_position_of_get_position (cfg : ActivitySimulatorConfig)
    (env : Env) (c : Connector) (pos : ExchangePosition)
    (hc : env.get_connector = .ok c) (h1 : c.hasGetPosition = true)
    (h2 : c.getPositionResult = .ok (some pos)) :
    get_exchange_position cfg env = pos.amount := by
  unfold get_exchange_position get_exchange_position_body
  rw [hc]
  simp only [except_bind_ok, except_bind_error, h1, h2, if_true]
  rfl

/-- Claim C9 (amended): for configurations whose min and max notionals
are (positive, ordered) integer multiples of 0.01, every value of
`generate_random_size_quote` lies in `[min_order_size_quote,
max_order_size_quote]` and has at most 2 decimal places (is an integer
multiple of 0.01); and in every tick outcome the amount of an OPEN order
is the random notional divided by a nonzero price while the amount of a
CLOSE order is exactly the absolute position, never the random draw. -/
theorem random_size_bounds_and_close_exactness :
    (∀ (cfg : ActivitySimulatorConfig) (env : Env) (ka kb : ℤ),
      cfg.min_order_size_quote = ka / 100 →
      cfg.max_order_size_quote = kb / 100 →
      0 < cfg.min_order_size_quote →
      cfg.min_order_size_quote ≤ cfg.max_order_size_quote →
      0 ≤ env.rand_unit → env.rand_unit ≤ 1 →
      cfg.min_order_size_quote ≤ generate_random_size_quote cfg env ∧
      generate_random_size_quote cfg env ≤ cfg.max_order_size_quote ∧
      ∃ k : ℤ, generate_random_size_quote cfg env = k / 100) ∧
    (∀ (cfg : ActivitySimulatorConfig) (env : Env) (s st : SimState)
      (acts : List ExecutorAction),
      determine_executor_actions cfg env s = .ok (st, acts) →
      ∀ cid oc, ExecutorAction.create cid oc ∈ acts →
        (oc.position_action = PositionAction.OPEN →
          ∃ p, p ≠ 0 ∧ oc.amount = generate_random_size_quote cfg env / p) ∧
        (oc.position_action = PositionAction.CLOSE →
          oc.amount = |get_exchange_position cfg env|)) := by
  constructor
  · intro cfg env ka kb ha hb _ hab h0 h1
    obtain ⟨hu1, hu2⟩ := uniformDraw_mem cfg.min_order_size_quote
      cfg.max_order_size_quote env.rand_unit hab h0 h1
    exact ⟨le_roundTo2 _ _ ka ha hu1, roundTo2_le _ _ kb hb hu2, _, rfl⟩
  · intro cfg env s st acts hdet cid oc hmem
    rcases determine_ok_actions cfg env s st acts hdet with
      h | h | ⟨side, p, hpne, hp, h⟩ | ⟨side, p, hp, h⟩
    · subst h
      rw [check_stale_snd] at hmem
      obtain ⟨e, -, heq⟩ := List.mem_map.mp hmem
      exact ExecutorAction.noConfusion heq
    · subst h
      simp at hmem
    · subst h
      simp only [List.mem_singleton, ExecutorAction.create.injEq] at hmem
      obtain ⟨-, rfl⟩ := hmem
      exact ⟨fun _ => ⟨p, hpne, rfl⟩, fun hclose => by simp at hclose⟩
    · subst h
      simp only [List.mem_singleton, ExecutorAction.create.injEq] at hmem
      obtain ⟨-, rfl⟩ := hmem
      exact ⟨fun hopen => by simp at hopen, fun _ => rfl⟩

/-- Claim C9, counterexample to the unamended statement: with
`min_order_size_quote = max_order_size_quote = 10.006` (a valid
configuration: `0 < min ≤ max`), the draw 10.006 rounds to 10.01, which
lies outside `[min, max]`. -/
theorem random_size_escapes_range_counterexample :
    0 < cfgRound.min_order_size_quote ∧
    cfgRound.min_order_size_quote ≤ cfgRound.max_order_size_quote ∧
    0 ≤ envOpenTick.rand_unit ∧ envOpenTick.rand_unit ≤ 1 ∧
    generate_random_size_quote cfgRound envOpenTick = 1001 / 100 ∧
    cfgRound.max_order_size_quote < 1001 / 100 := by
  norm_num [cfgRound, envOpenTick, generate_random_size_quote, roundTo2,
    uniformDraw, round_eq]

/-- Claim C9, witness: the default 10/50 bounds are multiples of 0.01 and
the drawn size obeys them; and the CLOSE order emitted over the short
position of `envCloseTick` has amount exactly the position magnitude. -/
theorem random_size_bounds_and_close_exactness_witness :
    (cfgD.min_order_size_quote ≤ generate_random_size_quote cfgD envOpenTick ∧
      generate_random_size_quote cfgD envOpenTick ≤ cfgD.max_order_size_quote ∧
      ∃ k : ℤ, generate_random_size_quote cfgD envOpenTick = k / 100) ∧
    ((5 : ℚ) / 2 = |get_exchange_position cfgD envCloseTick|) := by
  constructor
  · exact random_size_bounds_and_close_exactness.1 cfgD envOpenTick 1000 5000
      (by norm_num [cfgD]) (by norm_num [cfgD]) (by norm_num [cfgD])
      (by norm_num [cfgD]) (by norm_num [envOpenTick]) (by norm_num [envOpenTick])
  · have hdet : determine_executor_actions cfgD envCloseTick sInit =
        .ok ({ last_order_time := 10, last_open_side := none,
               completed_roundtrips := 0, replaced_orders := 0 },
          [ExecutorAction.create cfgD.id {
            timestamp := 10, connector_name := cfgD.connector_name,
            trading_pair := cfgD.trading_pair, side := TradeType.BUY,
            amount := (5 : ℚ) / 2, price := (1001 : ℚ) / 10,
            position_action := PositionAction.CLOSE, leverage := cfgD.leverage }]) := by
      have hpos : get_exchange_position cfgD envCloseTick = -(5/2) :=
        get_exchange_position_of_get_position cfgD envCloseTick connShort
          ⟨-(5/2)⟩ rfl rfl rfl
      simp only [cfgD, envCloseTick, envOpenTick] at hpos
      norm_num [determine_executor_actions, check_stale_executors, stale_executors,
        active_executors, should_place_order, close_order, calculate_order_price,
        fallback_price, get_crossing_price, hpos,
        envCloseTick, cfgD, sInit]
    exact ((random_size_bounds_and_close_exactness.2 cfgD envCloseTick sInit _ _
      hdet cfgD.id _ (List.mem_singleton.mpr rfl)).2 rfl)

lemma isEmpty_false_of_ne_nil {α : Type} {l : List α} (h : l ≠ []) :
    l.isEmpty = false := by
  cases l with
  | nil => exact absurd rfl h
  | cons a t => rfl

lemma get_crossing_price_eq (cfg : ActivitySimulatorConfig) (env : Env)
    (side : TradeType) (ob : OrderBook) (hbook : env.order_book = .ok ob)
    (hne : crossing_entries ob side ≠ []) (hdep : 1 ≤ cfg.max_orderbook_depth) :
    get_crossing_price cfg env side =
      some ((((crossing_entries ob side).take
          (min cfg.max_orderbook_depth (crossing_entries ob side).length)).getD
        (env.rand_book_index %
          ((crossing_entries ob side).take
            (min cfg.max_orderbook_depth (crossing_entries ob side).length)).length)
        default).price) := by
  have hlen : 0 < (crossing_entries ob side).length := List.length_pos.mpr hne
  have hpool : ((crossing_entries ob side).take
      (min cfg.max_orderbook_depth (crossing_entries ob side).length)) ≠ [] := by
    rw [← List.length_pos, List.length_take]
    omega
  simp only [get_crossing_price, hbook, isEmpty_false_of_ne_nil hne,
    isEmpty_false_of_ne_nil hpool, Bool.false_eq_true, if_false]

/-- Claim C7 (amended): with book-crossing pricing enabled, a successful
book lookup, a non-empty crossing side (asks for buy, bids for sell) and
a configured depth of at least 1, the selector returns the price of one
of the first `min(max_orderbook_depth, number of entries)` entries, each
of which is reachable under some random draw, and `calculate_order_price`
returns exactly that price whenever it is nonzero; in every other case
(book pricing disabled, no crossing price, or a zero sampled price) the
returned price is `mid * (1 + spread)` for buy and `mid * (1 - spread)`
for sell with `spread = spread_bps / 10000`. -/
theorem price_selector_book_and_fallback :
    (∀ (cfg : ActivitySimulatorConfig) (env : Env) (side : TradeType) (ob : OrderBook),
      env.order_book = .ok ob → crossing_entries ob side ≠ [] →
      1 ≤ cfg.max_orderbook_depth →
      ∃ p, get_crossing_price cfg env side = some p ∧
        p ∈ ((crossing_entries ob side).take
          (min cfg.max_orderbook_depth (crossing_entries ob side).length)).map
            OrderBookEntry.price ∧
        (cfg.use_orderbook_prices = true → p ≠ 0 →
          calculate_order_price cfg env side = .ok p)) ∧
    (∀ (cfg : ActivitySimulatorConfig) (env : Env) (side : TradeType) (ob : OrderBook),
      env.order_book = .ok ob →
      ∀ i, i < min cfg.max_orderbook_depth (crossing_entries ob side).length →
        get_crossing_price cfg { env with rand_book_index := i } side =
          some (((crossing_entries ob side).getD i default).price)) ∧
    (∀ (cfg : ActivitySimulatorConfig) (env : Env) (side : TradeType) (m : ℚ),
      env.mid_price = .ok (some m) →
      (cfg.use_orderbook_prices = false ∨ get_crossing_price cfg env side = none ∨
        get_crossing_price cfg env side = some 0) →
      calculate_order_price cfg env side =
        .ok (match side with
          | TradeType.BUY => m * (1 + cfg.spread_bps / 10000)
          | TradeType.SELL => m * (1 - cfg.spread_bps / 10000))) := by
  refine ⟨?_, ?_, ?_⟩
  · intro cfg env side ob hbook hne hdep
    have hlen : 0 < (crossing_entries ob side).length := List.length_pos.mpr hne
    have hcp := get_crossing_price_eq cfg env side ob hbook hne hdep
    have hpoollen : ((crossing_entries ob side).take
        (min cfg.max_orderbook_depth (crossing_entries ob side).length)).length =
          min cfg.max_orderbook_depth (crossing_entries ob side).length := by
      rw [List.length_take]
      omega
    have hidx : env.rand_book_index %
        ((crossing_entries ob side).take
          (min cfg.max_orderbook_depth (crossing_entries ob side).length)).length <
        ((crossing_entries ob side).take
          (min cfg.max_orderbook_depth (crossing_entries ob side).length)).length := by
      apply Nat.mod_lt
      rw [hpoollen]
      omega
    refine ⟨_, hcp, ?_, ?_⟩
    · apply List.mem_map_of_mem
      rw [List.getD_eq_getElem _ _ hidx]
      exact List.getElem_mem hidx
    · intro hob hpne
      simp only [calculate_order_price, hob, hcp, if_true]
      rw [if_neg hpne]
  · intro cfg env side ob hbook i hi
    have hlen : 0 < (crossing_entries ob side).length := by omega
    have hne : crossing_entries ob side ≠ [] := by
      rw [← List.length_pos]
      exact hlen
    have hdep : 1 ≤ cfg.max_orderbook_depth := by omega
    have hcp := get_crossing_price_eq cfg { env with rand_book_index := i } side ob
      hbook hne hdep
    rw [hcp]
    have hpoollen : ((crossing_entries ob side).take
        (min cfg.max_orderbook_depth (crossing_entries ob side).length)).length =
          min cfg.max_orderbook_depth (crossing_entries ob side).length := by
      rw [List.length_take]
      omega
    have hi' : i < ((crossing_entries ob side).take
        (min cfg.max_orderbook_depth (crossing_entries ob side).length)).length := by
      omega
    have hmod : (({ env with rand_book_index := i } : Env).rand_book_index %
        ((crossing_entries ob side).take
          (min cfg.max_orderbook_depth (crossing_entries ob side).length)).length) = i :=
      Nat.mod_eq_of_lt hi'
    rw [hmod, List.getD_eq_getElem _ _ hi',
      List.getD_eq_getElem _ _ (by omega : i < (crossing_entries ob side).length)]
    rw [List.getElem_take]
  · intro cfg env side m hmid hcase
    have hfb := fallback_price_eq cfg env side m hmid
    rcases hcase with h | h | h
    · rw [show calculate_order_price cfg env side = fallback_price cfg env side by
        simp [calculate_order_price, h], hfb]
    · rw [show calculate_order_price cfg env side = fallback_price cfg env side by
        by_cases hob : cfg.use_orderbook_prices <;>
          simp [calculate_order_price, hob, h], hfb]
    · rw [show calculate_order_price cfg env side = fallback_price cfg env side by
        by_cases hob : cfg.use_orderbook_prices <;>
          simp [calculate_order_price, hob, h], hfb]

/-- Claim C7, counterexample to the unamended statement: (a) with a
single zero-priced ask, book pricing enabled and a successful lookup on
a non-empty crossing side, the returned price is the mid-price fallback
`1001/10`, not a member of the first `min(depth, 1)` entry prices
`[0]`; (b) with `max_orderbook_depth = 0` and two asks, the claim would
require the returned price to be among the first `min(0, 2) = 0`
entries — an empty list — yet a price (the fallback) is returned. -/
theorem crossing_price_counterexample :
    cfgD.use_orderbook_prices = true ∧
    get_crossing_price cfgD envZeroAsk TradeType.BUY = some 0 ∧
    calculate_order_price cfgD envZeroAsk TradeType.BUY = .ok (1001 / 10) ∧
    (((⟨[⟨0⟩], []⟩ : OrderBook).ask_entries.take
        (min cfgD.max_orderbook_depth 1)).map OrderBookEntry.price = [(0 : ℚ)]) ∧
    ((1001 : ℚ) / 10 ∉ [(0 : ℚ)]) ∧
    cfgDepth0.use_orderbook_prices = true ∧
    calculate_order_price cfgDepth0 envAsk56 TradeType.BUY = .ok (1001 / 10) ∧
    ((⟨[⟨5⟩, ⟨6⟩], []⟩ : OrderBook).ask_entries.take
        (min cfgDepth0.max_orderbook_depth 2) = ([] : List OrderBookEntry)) := by
  refine ⟨rfl, rfl, ?_, by norm_num [cfgD], by norm_num, rfl, ?_, rfl⟩
  · norm_num [calculate_order_price, get_crossing_price, crossing_entries,
      fallback_price, envZeroAsk, envOpenTick, cfgD]
  · norm_num [calculate_order_price, get_crossing_price, crossing_entries,
      fallback_price, envAsk56, envOpenTick, cfgDepth0]

/-- Claim C7, witness: on a two-entry ask book with the default depth 10
the selector picks an entry among the first `min(10, 2)` and the price
selector returns it; index draw 1 reaches the second entry; and on the
failing book of `envOpenTick` the buy price is the mid-price spread
formula. -/
theorem price_selector_book_and_fallback_witness :
    (∃ p, get_crossing_price cfgD envAsk56 TradeType.BUY = some p ∧
      p ∈ ((crossing_entries ⟨[⟨5⟩, ⟨6⟩], []⟩ TradeType.BUY).take
        (min cfgD.max_orderbook_depth
          (crossing_entries ⟨[⟨5⟩, ⟨6⟩], []⟩ TradeType.BUY).length)).map
            OrderBookEntry.price ∧
      (cfgD.use_orderbook_prices = true → p ≠ 0 →
        calculate_order_price cfgD envAsk56 TradeType.BUY = .ok p)) ∧
    get_crossing_price cfgD { envAsk56 with rand_book_index := 1 } TradeType.BUY =
      some (((crossing_entries ⟨[⟨5⟩, ⟨6⟩], []⟩ TradeType.BUY).getD 1 default).price) ∧
    calculate_order_price cfgD envOpenTick TradeType.BUY =
      .ok ((100 : ℚ) * (1 + cfgD.spread_bps / 10000)) := by
  refine ⟨?_, ?_, ?_⟩
  · exact price_selector_book_and_fallback.1 cfgD envAsk56 TradeType.BUY
      ⟨[⟨5⟩, ⟨6⟩], []⟩ rfl (by simp [crossing_entries]) (by norm_num [cfgD])
  · exact price_selector_book_and_fallback.2.1 cfgD envAsk56 TradeType.BUY
      ⟨[⟨5⟩, ⟨6⟩], []⟩ rfl 1 (by norm_num [cfgD, crossing_entries])
  · exact price_selector_book_and_fallback.2.2 cfgD envOpenTick TradeType.BUY 100
      rfl (Or.inr (Or.inl rfl))
